import Mathlib

/-!
Verification of the replicated state cache (`src/utils/state_sync.py`), the
room messaging layer (`src/utils/text_chat.py`) and the connection fan-out
gateway (`src/main.py`) of the translate_manual repository, via a shallow
embedding of their state and operations.

Python dictionaries are embedded as association lists over `String` keys;
Redis and network effects are made explicit: each operation that talks to
the backing store takes a boolean telling whether that I/O completed
without raising, and the pub/sub fan-out is returned as the list of
callback handles that get invoked (callbacks are identified by `Nat`
handles).
-/

namespace TranslateManual

/-- Association-list lookup, modelling Python `d.get(k)` / `d[k]` on a dict
with string keys. -/
def alookup {α : Type} : List (String × α) → String → Option α
  | [], _ => none
  | (k1, v) :: t, k => if k1 = k then some v else alookup t k

/-- Association-list write, modelling Python `d[k] = v`: replaces the entry
for `k` if present, otherwise appends a fresh entry. -/
def aset {α : Type} : List (String × α) → String → α → List (String × α)
  | [], k, v => [(k, v)]
  | (k1, v1) :: t, k, v =>
      if k1 = k then (k, v) :: t else (k1, v1) :: aset t k v

/-- Association-list removal, modelling Python `del d[k]`. -/
def aerase {α : Type} : List (String × α) → String → List (String × α)
  | [], _ => []
  | (k1, v1) :: t, k => if k1 = k then t else (k1, v1) :: aerase t k

/-- The keys of an association list. -/
def akeys {α : Type} (l : List (String × α)) : List String := l.map Prod.fst

theorem alookup_aset_self {α : Type} (l : List (String × α)) (k : String) (v : α) :
    alookup (aset l k v) k = some v := by
  induction l with
  | nil => simp [aset, alookup]
  | cons p t ih =>
      obtain ⟨k1, v1⟩ := p
      by_cases h : k1 = k
      · simp [aset, alookup, h]
      · simp [aset, alookup, h, ih]

theorem alookup_aset_ne {α : Type} (l : List (String × α)) (k k1 : String) (v : α)
    (h : k1 ≠ k) : alookup (aset l k v) k1 = alookup l k1 := by
  have hne : ¬ k = k1 := fun hh => h hh.symm
  induction l with
  | nil => simp [aset, alookup, hne]
  | cons p t ih =>
      obtain ⟨k2, v2⟩ := p
      by_cases h2 : k2 = k
      · subst h2
        simp [aset, alookup, hne]
      · by_cases h3 : k2 = k1
        · subst h3
          simp [aset, alookup, h2]
        · simp [aset, alookup, h2, h3, ih]

theorem mem_akeys_of_alookup {α : Type} (l : List (String × α)) (k : String) (v : α)
    (h : alookup l k = some v) : k ∈ akeys l := by
  induction l with
  | nil => simp [alookup] at h
  | cons p t ih =>
      obtain ⟨k1, v1⟩ := p
      by_cases h1 : k1 = k
      · simp [akeys, h1]
      · simp only [alookup, if_neg h1] at h
        simp only [akeys, List.map_cons, List.mem_cons]
        exact Or.inr (ih h)

theorem alookup_eq_none_of_not_mem_akeys {α : Type} (l : List (String × α)) (k : String)
    (h : k ∉ akeys l) : alookup l k = none := by
  cases ha : alookup l k with
  | none => rfl
  | some v => exact absurd (mem_akeys_of_alookup l k v ha) h

theorem alookup_aerase_self {α : Type} (l : List (String × α)) (k : String)
    (hnd : (akeys l).Nodup) : alookup (aerase l k) k = none := by
  induction l with
  | nil => simp [aerase, alookup]
  | cons p t ih =>
      obtain ⟨k1, v1⟩ := p
      simp only [akeys, List.map_cons, List.nodup_cons] at hnd
      by_cases h : k1 = k
      · subst h
        rw [show aerase ((k1, v1) :: t) k1 = t by simp [aerase]]
        exact alookup_eq_none_of_not_mem_akeys t k1 (by simpa [akeys] using hnd.1)
      · rw [show aerase ((k1, v1) :: t) k = (k1, v1) :: aerase t k by simp [aerase, h]]
        simp only [alookup, if_neg h]
        exact ih (by simpa [akeys] using hnd.2)

namespace StateSync

/-- The mutable fields of `StateManager` from `src/utils/state_sync.py` that
the verified operations touch.  `local_state` is the namespace-indexed local
mirror, `subscribers` the namespace-indexed list of registered callback
handles (a Python `list`, so the same callback can occur several times),
`is_connected` the Redis connectivity flag, and `handler_tasks` counts the
`_message_handler` background tasks spawned with `asyncio.create_task` and
not yet cancelled (the code never cancels them). -/
structure SMState (α : Type) where
  local_state : List (String × List (String × α))
  subscribers : List (String × List Nat)
  is_connected : Bool
  handler_tasks : Nat
deriving Repr, DecidableEq

/-- `StateManager.set_state` (state_sync.py lines 52-92).  Writes the local
mirror first; if connected it then attempts `redis.set` plus the
`state_updates:{namespace}` publish — `redisOk` tells whether that pair of
calls completes without raising.  Returns the updated state and the boolean
result the Python function returns. -/
def set_state {α : Type} (st : SMState α) (key : String) (v : α) (ns : String)
    (redisOk : Bool) : SMState α × Bool :=
  let inner := aset ((alookup st.local_state ns).getD []) key v
  let st1 := { st with local_state := aset st.local_state ns inner }
  if st.is_connected then
    if redisOk then (st1, true) else (st1, false)
  else (st1, true)

/-- `StateManager.subscribe` (state_sync.py lines 166-202).  Appends the
callback handle to the namespace's subscriber list; when that makes the list
a singleton it awaits `pubsub.subscribe` (`pubsubOk` tells whether that call
raises) and, on success, spawns a `_message_handler` task. -/
def subscribe {α : Type} (st : SMState α) (ns : String) (cb : Nat)
    (pubsubOk : Bool) : SMState α × Bool :=
  if st.is_connected = false then (st, false)
  else
    let prev := (alookup st.subscribers ns).getD []
    let st1 := { st with subscribers := aset st.subscribers ns (prev ++ [cb]) }
    if prev = [] then
      if pubsubOk then ({ st1 with handler_tasks := st1.handler_tasks + 1 }, true)
      else (st1, false)
    else (st1, true)

/-- `StateManager.unsubscribe` (state_sync.py lines 204-235).  Removes the
first occurrence of the callback handle; when the list becomes empty it
awaits `pubsub.unsubscribe` (`pubsubOk`) and deletes the namespace entry.
No handler task is ever cancelled here. -/
def unsubscribe {α : Type} (st : SMState α) (ns : String) (cb : Nat)
    (pubsubOk : Bool) : SMState α × Bool :=
  match alookup st.subscribers ns with
  | none => (st, false)
  | some l =>
      let l1 := if cb ∈ l then l.erase cb else l
      let st1 := { st with subscribers := aset st.subscribers ns l1 }
      if l1 = [] then
        if pubsubOk then ({ st1 with subscribers := aerase st1.subscribers ns }, true)
        else (st1, false)
      else (st1, true)

/-- The `state_update` branch of `StateManager._message_handler`
(state_sync.py lines 252-269) for one propagation event already parsed into
namespace, key and value: when the namespace has a subscriber entry, the
local mirror is updated and every callback occurrence in the list is
invoked once, in order (returned as the invocation list). -/
def handle_state_update {α : Type} (st : SMState α) (ns key : String) (v : α) :
    SMState α × List Nat :=
  if (alookup st.subscribers ns).isSome then
    let inner := aset ((alookup st.local_state ns).getD []) key v
    ({ st with local_state := aset st.local_state ns inner },
     (alookup st.subscribers ns).getD [])
  else (st, [])

/-- `StateManager.get_all_states` (state_sync.py lines 294-329).  Starts
from a copy of the namespace's local-mirror dict, then — when connected and
the `keys`/`mget` round trip completes (`redisOk`) — assigns every decoded
backing-store pair into the result, overwriting local entries.
`redisPairs` are the store's (key, value) pairs for this namespace whose
fetched value is non-null, keys already stripped of the namespace prefix. -/
def get_all_states {α : Type} (st : SMState α) (ns : String)
    (redisPairs : List (String × α)) (redisOk : Bool) : List (String × α) :=
  let result := (alookup st.local_state ns).getD []
  if st.is_connected && redisOk then
    redisPairs.foldl (fun r kv => aset r kv.1 kv.2) result
  else result

end StateSync

/-- Python `str.strip()` on leading and trailing whitespace. -/
def pyStrip (s : String) : String :=
  String.mk ((((s.data.dropWhile Char.isWhitespace).reverse.dropWhile
    Char.isWhitespace)).reverse)

/-- Python `s.split(":")` (split on every single colon; a string with no
colon yields a one-element list, the empty string yields `[""]`). -/
def splitCharsOnColon : List Char → List String
  | [] => [""]
  | c :: rest =>
      let r := splitCharsOnColon rest
      if c = ':' then "" :: r
      else
        match r with
        | [] => [String.mk [c]]
        | h :: t => String.mk (c :: h.data) :: t

/-- Python `s.split(":")` lifted to `String`. -/
def pySplitColon (s : String) : List String := splitCharsOnColon s.data

namespace TextChat

/-- A chat message as built by `TextChatManager.send_message`
(src/utils/text_chat.py lines 128-136). -/
structure Message where
  id : String
  room : String
  user_id : String
  content : String
  type : String
  timestamp : String
deriving Repr, DecidableEq

/-- A caption as built by `TextChatManager.update_caption`
(text_chat.py lines 190-196). -/
structure Caption where
  text : String
  is_final : Bool
  language : String
  timestamp : String
deriving Repr, DecidableEq

/-- The mutable fields of `TextChatManager` (text_chat.py lines 12-27).
Listeners are identified by `Nat` handles; `message_listeners` and
`caption_listeners` are room-indexed. -/
structure ChatState where
  room_messages : List (String × List Message)
  message_listeners : List (String × List Nat)
  captions : List (String × List (String × Caption))
  caption_listeners : List (String × List Nat)
  message_counter : Nat
deriving Repr, DecidableEq

/-- The fresh `TextChatManager()` (text_chat.py line 368). -/
def chatInit : ChatState := ⟨[], [], [], [], 0⟩

/-- The message id `f"msg_{int(datetime.now().timestamp())}_{self.message_counter}"`
(text_chat.py line 126). -/
def mkMessageId (ts counter : Nat) : String :=
  "msg_" ++ toString ts ++ "_" ++ toString counter

/-- `TextChatManager.send_message` (text_chat.py lines 105-167): increments
the counter, builds the message and appends it to the room's in-memory log.
`ts` is `int(datetime.now().timestamp())` and `iso` the
`datetime.utcnow().isoformat()` string; the Redis `set_state` call (or the
local listener notification when replication is disabled) does not change
any `TextChatManager` field, so it is not part of the returned state. -/
def send_message (st : ChatState) (room user content mtype : String)
    (ts : Nat) (iso : String) : ChatState × Message :=
  let c := st.message_counter + 1
  let msg : Message := ⟨mkMessageId ts c, room, user, content, mtype, iso⟩
  ({ st with
      message_counter := c,
      room_messages :=
        aset st.room_messages room (((alookup st.room_messages room).getD []) ++ [msg]) },
   msg)

/-- The caption-mirror write of `TextChatManager.update_caption`
(text_chat.py lines 198-202): store the caption under `(room, user)`. -/
def caption_state_update (st : ChatState) (room user : String) (cap : Caption) :
    ChatState :=
  { st with
    captions := aset st.captions room
      (aset ((alookup st.captions room).getD []) user cap) }

/-- `TextChatManager.update_caption` (text_chat.py lines 169-230): builds
the caption, stores it under `(room, user)` first, and only then — when
`is_final` holds and the text is non-empty after stripping — appends the
final caption as a chat message via `send_message`. -/
def update_caption (st : ChatState) (room user text : String) (is_final : Bool)
    (language : String) (ts : Nat) (iso : String) : ChatState × Caption :=
  let cap : Caption := ⟨text, is_final, language, iso⟩
  let st1 := caption_state_update st room user cap
  let st2 :=
    if is_final && !(pyStrip text == "") then
      (send_message st1 room user text "caption" ts iso).1
    else st1
  (st2, cap)

/-- Python slice `l[i:]` for a possibly negative index `i`. -/
def pySliceFrom (l : List Message) (i : Int) : List Message :=
  if 0 ≤ i then l.drop i.toNat else l.drop (l.length - (-i).toNat)

/-- `TextChatManager.get_room_messages` (text_chat.py lines 232-266).
The Python guard `if before_id:` is false both for `None` and for the empty
string; the loop finds the first index whose id equals `before_id` and
truncates to the strict prefix; finally
`messages[-limit:] if len(messages) > limit else messages` is returned. -/
def get_room_messages (st : ChatState) (room : String) (limit : Int)
    (before_id : Option String) : List Message :=
  match alookup st.room_messages room with
  | none => []
  | some msgs =>
      let messages :=
        match before_id with
        | none => msgs
        | some bid =>
            if bid = "" then msgs
            else
              match msgs.findIdx? (fun m => m.id == bid) with
              | some i => msgs.take i
              | none => msgs
      if (messages.length : Int) > limit then pySliceFrom messages (-limit)
      else messages

/-- `TextChatManager.get_room_captions` (text_chat.py lines 268-281). -/
def get_room_captions (st : ChatState) (room : String) : List (String × Caption) :=
  (alookup st.captions room).getD []

/-- `TextChatManager.clear_room_messages` (text_chat.py lines 353-365),
local effect only. -/
def clear_room_messages (st : ChatState) (room : String) : ChatState :=
  if (alookup st.room_messages room).isSome then
    { st with room_messages := aset st.room_messages room [] }
  else st

/-- `TextChatManager._handle_message_update` (text_chat.py lines 41-67):
appends a propagated message to the room log and returns the message
listener handles invoked. -/
def handle_message_update (st : ChatState) (key : String) (value : Option Message) :
    ChatState × List Nat :=
  match value with
  | none => (st, [])
  | some msg =>
      let st1 := { st with
        room_messages :=
          aset st.room_messages key (((alookup st.room_messages key).getD []) ++ [msg]) }
      (st1, (alookup st.message_listeners key).getD [])

/-- `TextChatManager._handle_caption_update` (text_chat.py lines 69-103):
drops falsy payloads, splits the key on `":"`, and only when that gives
exactly two parts updates the caption mirror and notifies the room's
caption listeners (returned as the invocation list). -/
def handle_caption_update (st : ChatState) (key : String) (value : Option Caption) :
    ChatState × List Nat :=
  match value with
  | none => (st, [])
  | some cap =>
      let parts := pySplitColon key
      if parts.length = 2 then
        let room := parts.headD ""
        let uid := (parts.drop 1).headD ""
        let st1 := { st with
          captions := aset st.captions room
            (aset ((alookup st.captions room).getD []) uid cap) }
        (st1, (alookup st.caption_listeners room).getD [])
      else (st, [])

/-- Spec-side truncation for `get_room_messages`, following the spec's words:
truncate the room log to the prefix strictly preceding the message with id
`before_id`, a no-op when absent or when `before_id` is not given. -/
def specTruncateBefore (msgs : List Message) (before_id : Option String) :
    List Message :=
  match before_id with
  | none => msgs
  | some bid =>
      match msgs.findIdx? (fun m => m.id == bid) with
      | some i => msgs.take i
      | none => msgs

/-- The last `n` entries of a list. -/
def lastN (l : List Message) (n : Nat) : List Message := l.drop (l.length - n)

/-- Spec-side pagination, following the spec's words: truncate, then return
the last `limit` entries of the possibly truncated sequence. -/
def spec_get_room_messages (st : ChatState) (room : String) (limit : Nat)
    (before_id : Option String) : List Message :=
  lastN (specTruncateBefore ((alookup st.room_messages room).getD []) before_id) limit

/-- One local `TextChatManager` operation that can touch a room log. -/
inductive ChatOp where
  | send (room user content mtype : String) (ts : Nat) (iso : String)
  | caption (room user text : String) (is_final : Bool) (language : String)
      (ts : Nat) (iso : String)
  | clear (room : String)
deriving Repr, DecidableEq

/-- Run a sequence of local operations against a `TextChatManager` state. -/
def runOps (st : ChatState) : List ChatOp → ChatState
  | [] => st
  | op :: rest =>
      let st1 :=
        match op with
        | .send r u c t ts iso => (send_message st r u c t ts iso).1
        | .caption r u x f l ts iso => (update_caption st r u x f l ts iso).1
        | .clear r => clear_room_messages st r
      runOps st1 rest

/-- Repeatedly send the same text message to room `"R"` at timestamp 0. -/
def sendNTimes (st : ChatState) : Nat → ChatState
  | 0 => st
  | n + 1 => sendNTimes (send_message st "R" "u" "hi" "text" 0 "T").1 n

/-- Every room log's message ids are `msg_<ts>_<counter>` strings whose
counter components are strictly increasing in insertion order and bounded
by the manager's current counter. -/
def CounterChain (st : ChatState) : Prop :=
  ∀ room : String, ∃ tcs : List (Nat × Nat),
    ((alookup st.room_messages room).getD []).map Message.id
      = tcs.map (fun p => mkMessageId p.1 p.2) ∧
    (tcs.map Prod.snd).Pairwise (fun a b => a < b) ∧
    ∀ p ∈ tcs, p.2 ≤ st.message_counter

end TextChat

namespace Gateway

open TextChat

/-- The `active_websockets` registry of `src/main.py` line 38: room name to
list of live connections, connections identified by `Nat` handles. -/
abbrev Registry := List (String × List Nat)

/-- Registration on websocket accept (main.py lines 241-245): create the
room entry if missing and append the connection. -/
def ws_connect (reg : Registry) (room : String) (ws : Nat) : Registry :=
  aset reg room (((alookup reg room).getD []) ++ [ws])

/-- How the per-connection handler coroutine exits: a `WebSocketDisconnect`
raised by the socket, or any other exit (another exception type escaping
the loop, or task cancellation at shutdown). -/
inductive ExitCause where
  | wsDisconnect
  | otherExit
deriving Repr, DecidableEq

/-- Connection teardown in `websocket_endpoint` (main.py lines 396-409).
The cleanup lives in `except WebSocketDisconnect:` with no `finally`
block, so it runs only when the exit cause is a `WebSocketDisconnect`;
every other exit path leaves the registry untouched. -/
def ws_teardown (reg : Registry) (room : String) (ws : Nat) (cause : ExitCause) :
    Registry :=
  match cause with
  | .wsDisconnect =>
      match alookup reg room with
      | none => reg
      | some conns =>
          if ws ∈ conns then
            let conns1 := conns.erase ws
            if conns1 = [] then aerase (aset reg room conns1) room
            else aset reg room conns1
          else reg
  | .otherExit => reg

/-- The broadcast loop `for ws in active_websockets.get(room_name, []): if
ws != websocket:` (main.py lines 303-304 and 326-327). -/
def broadcast_targets (reg : Registry) (room : String) (sender : Nat) : List Nat :=
  ((alookup reg room).getD []).filter (fun ws => ws != sender)

/-- The `text` branch of the inbound frame dispatch (main.py lines
289-308): strip the content, and when non-empty send it through
`TextChatManager.send_message` and broadcast the resulting message to every
other connection in the room.  Returns the new chat state and the list of
(recipient, message) deliveries. -/
def handle_text_frame (reg : Registry) (room : String) (sender : Nat)
    (user : String) (st : ChatState) (content : String) (ts : Nat) (iso : String) :
    ChatState × List (Nat × Message) :=
  let c := pyStrip content
  if c = "" then (st, [])
  else
    let r := send_message st room user c "text" ts iso
    (r.1, (broadcast_targets reg room sender).map (fun ws => (ws, r.2)))

/-- The `caption` branch of the inbound frame dispatch (main.py lines
310-332): update the caption through `TextChatManager.update_caption` and
broadcast the caption frame to every other connection in the room. -/
def handle_caption_frame (reg : Registry) (room : String) (sender : Nat)
    (user : String) (st : ChatState) (text : String) (is_final : Bool)
    (language : String) (ts : Nat) (iso : String) :
    ChatState × Caption × List Nat :=
  let r := update_caption st room user text is_final language ts iso
  (r.1, r.2, broadcast_targets reg room sender)

/-- The `clear_captions` command branch (main.py lines 338-345): an
`update_caption` with empty text, `is_final=True` and the default
language. -/
def clear_captions_command (st : ChatState) (room user : String) (ts : Nat)
    (iso : String) : ChatState × Caption :=
  update_caption st room user "" true "zh-CN" ts iso

end Gateway

theorem akeys_aset_of_mem {α : Type} (l : List (String × α)) (k : String) (v : α)
    (h : k ∈ akeys l) : akeys (aset l k v) = akeys l := by
  induction l with
  | nil => simp [akeys] at h
  | cons p t ih =>
      obtain ⟨k1, v1⟩ := p
      by_cases h1 : k1 = k
      · subst h1
        simp [aset, akeys]
      · simp only [akeys, List.map_cons, List.mem_cons] at h
        rcases h with h | h
        · exact absurd h.symm h1
        · have ht := ih (by simpa [akeys] using h)
          simp only [aset, if_neg h1, akeys, List.map_cons]
          simpa [akeys] using ht

theorem alookup_foldl_aset_not_mem {α : Type} (pairs : List (String × α))
    (r : List (String × α)) (k : String) (h : k ∉ akeys pairs) :
    alookup (pairs.foldl (fun acc kv => aset acc kv.1 kv.2) r) k = alookup r k := by
  induction pairs generalizing r with
  | nil => simp
  | cons p t ih =>
      obtain ⟨k1, v1⟩ := p
      simp only [akeys, List.map_cons, List.mem_cons] at h
      push_neg at h
      simp only [List.foldl_cons]
      rw [ih _ (by simpa [akeys] using h.2), alookup_aset_ne _ _ _ _ h.1]

theorem alookup_foldl_aset_mem {α : Type} (pairs : List (String × α))
    (r : List (String × α)) (k : String) (v : α)
    (hnd : (akeys pairs).Nodup) (h : (k, v) ∈ pairs) :
    alookup (pairs.foldl (fun acc kv => aset acc kv.1 kv.2) r) k = some v := by
  induction pairs generalizing r with
  | nil => simp at h
  | cons p t ih =>
      obtain ⟨k1, v1⟩ := p
      simp only [akeys, List.map_cons, List.nodup_cons] at hnd
      rcases List.mem_cons.mp h with h1 | h1
      · injection h1 with hk hv
        subst hk
        subst hv
        simp only [List.foldl_cons]
        rw [alookup_foldl_aset_not_mem _ _ _ (by simpa [akeys] using hnd.1)]
        exact alookup_aset_self r k v
      · simp only [List.foldl_cons]
        exact ih (aset r k1 v1) (by simpa [akeys] using hnd.2) h1

/-- C1: `set_state` with the store connected and the Redis set/publish
raising returns `false` to the caller even though the local-mirror write
succeeded — refuting the claim that the caller always observes success
whenever the local write succeeded. -/
theorem C1_counterexample :
    (StateSync.set_state (⟨[], [], true, 0⟩ : StateSync.SMState Nat) "k" 5 "n" false).2
      = false ∧
    alookup ((alookup (StateSync.set_state (⟨[], [], true, 0⟩ : StateSync.SMState Nat)
      "k" 5 "n" false).1.local_state "n").getD []) "k" = some 5 := by
  decide

/-- C1 (amended): `set_state` always writes the local mirror synchronously,
and it returns `true` exactly when the backing store is disconnected or the
persist-and-publish round trip succeeds; when that round trip raises, the
failure is logged and `false` is returned while the local write is kept. -/
theorem C1_set_state_local_write_result {α : Type} (st : StateSync.SMState α)
    (key : String) (v : α) (ns : String) (redisOk : Bool) :
    alookup ((alookup (StateSync.set_state st key v ns redisOk).1.local_state ns).getD [])
      key = some v ∧
    (StateSync.set_state st key v ns redisOk).2 = (!st.is_connected || redisOk) := by
  unfold StateSync.set_state
  cases hc : st.is_connected <;> cases redisOk <;>
    simp [hc, alookup_aset_self]

/-- C2: subscribing the same callback handle twice makes one propagation
event invoke it twice, and after unsubscribing it back down to zero the
namespace entry is gone but one `_message_handler` background task still
remains — refuting both the no-double-delivery and the no-leaked-task
parts of the claim. -/
theorem C2_counterexample :
    ((StateSync.handle_state_update
        (StateSync.subscribe ((StateSync.subscribe
          (⟨[], [], true, 0⟩ : StateSync.SMState Nat) "n" 7 true).1) "n" 7 true).1
        "n" "k" 0).2.count 7 = 2) ∧
    ((StateSync.unsubscribe (StateSync.unsubscribe
        (StateSync.subscribe ((StateSync.subscribe
          (⟨[], [], true, 0⟩ : StateSync.SMState Nat) "n" 7 true).1) "n" 7 true).1
        "n" 7 true).1 "n" 7 true).1.subscribers = []) ∧
    ((StateSync.unsubscribe (StateSync.unsubscribe
        (StateSync.subscribe ((StateSync.subscribe
          (⟨[], [], true, 0⟩ : StateSync.SMState Nat) "n" 7 true).1) "n" 7 true).1
        "n" 7 true).1 "n" 7 true).1.handler_tasks = 1) := by
  decide

/-- C2 (amended): each `subscribe` appends one more registration of the
callback (even when it is already registered) and a propagation event
invokes exactly the registered occurrences in order, so n subscriptions
mean n invocations per event; a successful first subscribe for a namespace
spawns one more handler task; removing the last registration deletes the
namespace's subscriber entry, but no unsubscribe ever tears a handler task
down. -/
theorem C2_subscription_semantics (st : StateSync.SMState Nat) (ns : String)
    (cb : Nat) (key : String) (v : Nat)
    (hconn : st.is_connected = true) (hnd : (akeys st.subscribers).Nodup) :
    (StateSync.handle_state_update st ns key v).2 = (alookup st.subscribers ns).getD [] ∧
    (alookup (StateSync.subscribe st ns cb true).1.subscribers ns).getD []
      = ((alookup st.subscribers ns).getD []) ++ [cb] ∧
    ((alookup st.subscribers ns).getD [] = [] →
      (StateSync.subscribe st ns cb true).1.handler_tasks = st.handler_tasks + 1) ∧
    (∀ l, alookup st.subscribers ns = some l → l.erase cb = [] →
      alookup (StateSync.unsubscribe st ns cb true).1.subscribers ns = none) ∧
    (∀ ok, (StateSync.unsubscribe st ns cb ok).1.handler_tasks = st.handler_tasks) := by
  refine ⟨?_, ?_, fun hprev => ?_, fun l hl he => ?_, fun ok => ?_⟩
  · cases ha : alookup st.subscribers ns <;>
      simp [StateSync.handle_state_update, ha]
  · by_cases hprev : (alookup st.subscribers ns).getD [] = [] <;>
      simp [StateSync.subscribe, hconn, hprev, alookup_aset_self]
  · simp [StateSync.subscribe, hconn, hprev]
  · have hl1 : (if cb ∈ l then l.erase cb else l) = [] := by
      by_cases hm : cb ∈ l
      · simpa [hm] using he
      · rw [if_neg hm]
        rw [List.erase_of_not_mem hm] at he
        exact he
    have hmem : ns ∈ akeys st.subscribers :=
      mem_akeys_of_alookup _ _ _ hl
    simp only [StateSync.unsubscribe, hl, hl1, if_pos rfl]
    exact alookup_aerase_self _ _ (by rw [akeys_aset_of_mem _ _ _ hmem]; exact hnd)
  · cases ha : alookup st.subscribers ns with
    | none => simp [StateSync.unsubscribe, ha]
    | some l =>
        by_cases he : (if cb ∈ l then l.erase cb else l) = [] <;> cases ok <;>
          simp [StateSync.unsubscribe, ha, he]

/-- C2 witness: the amended statement applied to the connected state holding
one registration of callback 7 for namespace `"n"`. -/
theorem C2_subscription_semantics_witness :
    (⟨[], [("n", [7])], true, 1⟩ : StateSync.SMState Nat).is_connected = true ∧
    (akeys (⟨[], [("n", [7])], true, 1⟩ : StateSync.SMState Nat).subscribers).Nodup ∧
    (alookup (StateSync.subscribe
        (⟨[], [("n", [7])], true, 1⟩ : StateSync.SMState Nat) "n" 7 true).1.subscribers
      "n").getD [] = [7] ++ [7] :=
  ⟨by decide, by decide,
    (C2_subscription_semantics ⟨[], [("n", [7])], true, 1⟩ "n" 7 "k" 0
      (by decide) (by decide)).2.1⟩

/-- C3: with local mirror value 1 and backing-store value 2 for the same
key, `get_all_states` returns the backing-store value — refuting the claim
that the local mirror wins on a key conflict. -/
theorem C3_counterexample :
    alookup (StateSync.get_all_states
      (⟨[("n", [("k", 1)])], [], true, 0⟩ : StateSync.SMState Nat) "n" [("k", 2)] true)
      "k" = some 2 ∧
    alookup ((alookup (⟨[("n", [("k", 1)])], [], true, 0⟩ :
      StateSync.SMState Nat).local_state "n").getD []) "k" = some 1 := by
  decide

/-- C3 (amended): `get_all_states` returns the union of local-mirror and
backing-store entries, but on a key present in both the backing-store value
wins; mirror values survive only for keys the store fetch does not report,
and when disconnected (or when the fetch raises) the result is exactly the
local mirror. -/
theorem C3_get_all_states_store_wins {α : Type} (st : StateSync.SMState α)
    (ns : String) (pairs : List (String × α)) (k : String) (v : α)
    (hnd : (akeys pairs).Nodup) :
    (st.is_connected = true →
      ((k, v) ∈ pairs → alookup (StateSync.get_all_states st ns pairs true) k = some v) ∧
      (k ∉ akeys pairs → alookup (StateSync.get_all_states st ns pairs true) k
        = alookup ((alookup st.local_state ns).getD []) k)) ∧
    (StateSync.get_all_states st ns pairs false = (alookup st.local_state ns).getD []) ∧
    (st.is_connected = false →
      StateSync.get_all_states st ns pairs true = (alookup st.local_state ns).getD []) := by
  refine ⟨fun hc => ⟨fun hm => ?_, fun hm => ?_⟩, ?_, fun hc => ?_⟩
  · unfold StateSync.get_all_states
    rw [if_pos (by simp [hc])]
    exact alookup_foldl_aset_mem _ _ _ _ hnd hm
  · unfold StateSync.get_all_states
    rw [if_pos (by simp [hc])]
    exact alookup_foldl_aset_not_mem _ _ _ hm
  · simp [StateSync.get_all_states]
  · simp [StateSync.get_all_states, hc]

/-- C3 witness: the amended statement applied to a connected state whose
mirror holds `k ↦ 1` and `only ↦ 3` while the store reports `k ↦ 2`. -/
theorem C3_get_all_states_store_wins_witness :
    (akeys [("k", (2 : Nat))]).Nodup ∧
    (⟨[("n", [("k", 1), ("only", 3)])], [], true, 0⟩ :
      StateSync.SMState Nat).is_connected = true ∧
    ("k", (2 : Nat)) ∈ [("k", (2 : Nat))] ∧
    alookup (StateSync.get_all_states
      (⟨[("n", [("k", 1), ("only", 3)])], [], true, 0⟩ : StateSync.SMState Nat)
      "n" [("k", 2)] true) "k" = some 2 :=
  ⟨by decide, by decide, by decide,
    ((C3_get_all_states_store_wins
        ⟨[("n", [("k", 1), ("only", 3)])], [], true, 0⟩ "n" [("k", 2)] "k" 2
        (by decide)).1 rfl).1 (by decide)⟩

/-- C7: a connection whose handler exits through anything other than a
`WebSocketDisconnect` (another exception type, or task cancellation) is
never removed from `active_websockets` — the cleanup lives only in the
`except WebSocketDisconnect` branch, with no `finally` — so the room entry
survives with no live connection, while the `WebSocketDisconnect` path does
clean up and deletes the emptied room entry. -/
theorem C7_teardown_misses_non_disconnect_exits :
    Gateway.ws_teardown (Gateway.ws_connect [] "R" 0) "R" 0 Gateway.ExitCause.otherExit
      = [("R", [0])] ∧
    Gateway.ws_teardown (Gateway.ws_connect [] "R" 0) "R" 0 Gateway.ExitCause.wsDisconnect
      = [] := by
  decide

/-- C8: an inbound `text` frame from connection A with non-empty stripped
content is delivered as a message to every other connection in the room —
in particular B receives the resulting message — and A receives no copy;
`caption` frames are broadcast with the same exclusion of the
originator. -/
theorem C8_broadcast_excludes_sender (reg : Gateway.Registry) (room : String)
    (A B : Nat) (user : String) (st : TextChat.ChatState) (content : String)
    (ts : Nat) (iso : String)
    (hB : B ∈ (alookup reg room).getD []) (hBA : B ≠ A)
    (hc : pyStrip content ≠ "") :
    ((B, (TextChat.send_message st room user (pyStrip content) "text" ts iso).2)
        ∈ (Gateway.handle_text_frame reg room A user st content ts iso).2) ∧
    (∀ p ∈ (Gateway.handle_text_frame reg room A user st content ts iso).2, p.1 ≠ A) ∧
    (∀ text is_final lang,
      B ∈ (Gateway.handle_caption_frame reg room A user st text is_final lang ts iso).2.2 ∧
      A ∉ (Gateway.handle_caption_frame reg room A user st text is_final lang ts iso).2.2) := by
  have htargets : ∀ x, x ∈ Gateway.broadcast_targets reg room A ↔
      (x ∈ (alookup reg room).getD [] ∧ x ≠ A) := by
    intro x
    simp [Gateway.broadcast_targets, List.mem_filter]
  refine ⟨?_, ?_, fun text is_final lang => ⟨?_, ?_⟩⟩
  · simp only [Gateway.handle_text_frame, if_neg hc, List.mem_map]
    exact ⟨B, (htargets B).mpr ⟨hB, hBA⟩, rfl⟩
  · intro p hp
    simp only [Gateway.handle_text_frame, if_neg hc, List.mem_map] at hp
    obtain ⟨x, hx, rfl⟩ := hp
    exact ((htargets x).mp hx).2
  · exact (htargets B).mpr ⟨hB, hBA⟩
  · intro hA
    exact ((htargets A).mp hA).2 rfl

/-- C8 witness: room `"R"` holding connections 0 (the sender A) and 1 (B),
inbound content `"hi"`. -/
theorem C8_broadcast_excludes_sender_witness :
    (1 ∈ (alookup ([("R", [0, 1])] : Gateway.Registry) "R").getD []) ∧ (1 ≠ 0) ∧
    pyStrip "hi" ≠ "" ∧
    ((1, (TextChat.send_message TextChat.chatInit "R" "u" (pyStrip "hi") "text" 0 "T").2)
        ∈ (Gateway.handle_text_frame [("R", [0, 1])] "R" 0 "u" TextChat.chatInit
            "hi" 0 "T").2) :=
  ⟨by decide, by decide, by decide,
    (C8_broadcast_excludes_sender [("R", [0, 1])] "R" 0 1 "u" TextChat.chatInit
      "hi" 0 "T" (by decide) (by decide) (by decide)).1⟩

/-- C9: a caption propagation event whose key does not split on `":"` into
exactly two parts is silently dropped by `_handle_caption_update`: the
caption mirror is left unchanged and no caption listener is invoked. -/
theorem C9_malformed_caption_key_dropped (st : TextChat.ChatState) (key : String)
    (value : Option TextChat.Caption)
    (h : (pySplitColon key).length ≠ 2) :
    TextChat.handle_caption_update st key value = (st, []) := by
  cases value with
  | none => rfl
  | some cap => simp [TextChat.handle_caption_update, h]

/-- C9 witness: the key `"a:b:c"` (a room or user containing `":"`) splits
into three parts, so the event is dropped even with a listener registered. -/
theorem C9_malformed_caption_key_dropped_witness :
    (pySplitColon "a:b:c").length ≠ 2 ∧
    TextChat.handle_caption_update
        (⟨[], [], [], [("a", [4])], 0⟩ : TextChat.ChatState) "a:b:c"
        (some ⟨"x", true, "en", "t"⟩)
      = (⟨[], [], [], [("a", [4])], 0⟩, []) :=
  ⟨by decide,
    C9_malformed_caption_key_dropped ⟨[], [], [], [("a", [4])], 0⟩ "a:b:c"
      (some ⟨"x", true, "en", "t"⟩) (by decide)⟩

/-- C10: `update_caption` with `is_final=true` and text that strips to empty
still replaces the `(room, user)` caption snapshot entry with the new final
caption, appends no message to any room log and leaves the message counter
alone; the gateway's `clear_captions` command is exactly this call with
empty text. -/
theorem C10_empty_final_caption_clears (st : TextChat.ChatState)
    (room user text lang : String) (ts : Nat) (iso : String)
    (h : pyStrip text = "") :
    (TextChat.update_caption st room user text true lang ts iso).2
      = ⟨text, true, lang, iso⟩ ∧
    alookup ((alookup (TextChat.update_caption st room user text true lang ts
      iso).1.captions room).getD []) user = some ⟨text, true, lang, iso⟩ ∧
    (TextChat.update_caption st room user text true lang ts iso).1.room_messages
      = st.room_messages ∧
    (TextChat.update_caption st room user text true lang ts iso).1.message_counter
      = st.message_counter ∧
    Gateway.clear_captions_command st room user ts iso
      = TextChat.update_caption st room user "" true "zh-CN" ts iso := by
  refine ⟨?_, ?_, ?_, ?_, rfl⟩ <;>
    · unfold TextChat.update_caption
      simp [h, TextChat.caption_state_update, alookup_aset_self]

/-- C10 witness: whitespace-only text `" "` for room `"R"`, user `"u"`,
starting from a state whose snapshot holds an earlier non-final caption. -/
theorem C10_empty_final_caption_clears_witness :
    pyStrip " " = "" ∧
    alookup ((alookup (TextChat.update_caption
        (⟨[], [], [("R", [("u", ⟨"old", false, "zh-CN", "t0"⟩)])], [], 0⟩ :
          TextChat.ChatState)
        "R" "u" " " true "zh-CN" 3 "t1").1.captions "R").getD []) "u"
      = some ⟨" ", true, "zh-CN", "t1"⟩ :=
  ⟨by decide,
    (C10_empty_final_caption_clears
      ⟨[], [], [("R", [("u", ⟨"old", false, "zh-CN", "t0"⟩)])], [], 0⟩
      "R" "u" " " "zh-CN" 3 "t1" (by decide)).2.1⟩

/-- C5: a finalized caption with text that is non-empty after stripping
updates the `(room, user)` caption snapshot to `is_final=true` and appends
exactly one new `"caption"` message carrying that text to the room's log;
the append happens after the caption-state update — the final state is
literally `send_message` applied to the caption-updated state. -/
theorem C5_final_caption_appends_one_message (st : TextChat.ChatState)
    (room user text lang : String) (ts : Nat) (iso : String)
    (h : pyStrip text ≠ "") :
    alookup ((alookup (TextChat.update_caption st room user text true lang ts
        iso).1.captions room).getD []) user = some ⟨text, true, lang, iso⟩ ∧
    (alookup (TextChat.update_caption st room user text true lang ts
        iso).1.room_messages room).getD []
      = ((alookup st.room_messages room).getD [])
        ++ [⟨TextChat.mkMessageId ts (st.message_counter + 1), room, user, text,
             "caption", iso⟩] ∧
    (TextChat.update_caption st room user text true lang ts iso).1
      = (TextChat.send_message
          (TextChat.caption_state_update st room user ⟨text, true, lang, iso⟩)
          room user text "caption" ts iso).1 := by
  unfold TextChat.update_caption
  simp [h, TextChat.send_message, TextChat.caption_state_update, alookup_aset_self]

/-- C5 witness: the spec's own instance — `update_caption(room, user,
"Hello", is_final=true)` on a fresh manager. -/
theorem C5_final_caption_appends_one_message_witness :
    pyStrip "Hello" ≠ "" ∧
    (alookup (TextChat.update_caption TextChat.chatInit "R" "u" "Hello" true
        "zh-CN" 9 "T").1.room_messages "R").getD []
      = ((alookup TextChat.chatInit.room_messages "R").getD [])
        ++ [⟨TextChat.mkMessageId 9 (TextChat.chatInit.message_counter + 1), "R", "u",
             "Hello", "caption", "T"⟩] :=
  ⟨by decide,
    (C5_final_caption_appends_one_message TextChat.chatInit "R" "u" "Hello"
      "zh-CN" 9 "T" (by decide)).2.1⟩

theorem tailPage_eq_lastN (messages : List TextChat.Message) (limit : Int)
    (h : 1 ≤ limit) :
    (if (messages.length : Int) > limit then TextChat.pySliceFrom messages (-limit)
     else messages) = TextChat.lastN messages limit.toNat := by
  by_cases hl : (messages.length : Int) > limit
  · rw [if_pos hl]
    unfold TextChat.pySliceFrom TextChat.lastN
    rw [if_neg (by omega)]
    congr 1
    omega
  · rw [if_neg hl]
    unfold TextChat.lastN
    rw [Nat.sub_eq_zero_of_le (by omega), List.drop_zero]

/-- C4: at `limit = 0` on the one-message log, the code returns the whole
log (`messages[-0:]` is the full slice in Python) while the claim's "last
`limit` entries" is the empty sequence — refuting the claim as universally
quantified over every limit. -/
theorem C4_counterexample :
    TextChat.get_room_messages
        (⟨[("R", [⟨"msg_0_1", "R", "u", "hi", "text", "t"⟩])], [], [], [], 1⟩ :
          TextChat.ChatState) "R" 0 none
      = [⟨"msg_0_1", "R", "u", "hi", "text", "t"⟩] ∧
    TextChat.spec_get_room_messages
        (⟨[("R", [⟨"msg_0_1", "R", "u", "hi", "text", "t"⟩])], [], [], [], 1⟩ :
          TextChat.ChatState) "R" 0 none
      = [] := by
  decide

/-- C4 (amended): for every positive limit and on room logs whose message
ids are non-empty (every id the system generates starts with `"msg_"`),
`get_room_messages` truncates the log to the prefix strictly preceding the
first message whose id equals `before_id` (a no-op when absent or not
given) and returns the last `limit` entries of that sequence. -/
theorem C4_pagination (st : TextChat.ChatState) (room : String) (limit : Int)
    (before_id : Option String)
    (hlim : 1 ≤ limit)
    (hids : ∀ m ∈ (alookup st.room_messages room).getD [], m.id ≠ "") :
    TextChat.get_room_messages st room limit before_id
      = TextChat.spec_get_room_messages st room limit.toNat before_id := by
  unfold TextChat.get_room_messages TextChat.spec_get_room_messages
  cases ha : alookup st.room_messages room with
  | none =>
      cases before_id with
      | none => simp [TextChat.specTruncateBefore, TextChat.lastN]
      | some bid => simp [TextChat.specTruncateBefore, TextChat.lastN]
  | some msgs =>
      have hmsgs : (alookup st.room_messages room).getD [] = msgs := by
        rw [ha]
        rfl
      rw [hmsgs] at hids
      simp only [Option.getD_some]
      cases before_id with
      | none => exact tailPage_eq_lastN msgs limit hlim
      | some bid =>
          by_cases hb : bid = ""
          · subst hb
            have hfind : msgs.findIdx? (fun m => m.id == "") = none := by
              refine List.findIdx?_eq_none_iff.mpr fun m hm => ?_
              simpa using hids m hm
            simp only [if_pos rfl, TextChat.specTruncateBefore, hfind]
            exact tailPage_eq_lastN msgs limit hlim
          · simp only [if_neg hb, TextChat.specTruncateBefore]
            cases hf : msgs.findIdx? (fun m => m.id == bid) with
            | none => exact tailPage_eq_lastN msgs limit hlim
            | some i => exact tailPage_eq_lastN (msgs.take i) limit hlim

/-- C4 witness: the spec's own instance — log `[m1, m2, m3]`,
`get_room_messages(limit=2, before_id=m3.id)` returns `[m1, m2]`. -/
theorem C4_pagination_witness :
    (1 : Int) ≤ 2 ∧
    (∀ m ∈ (alookup (⟨[("R",
        [⟨"msg_0_1", "R", "u", "a", "text", "t"⟩,
         ⟨"msg_0_2", "R", "u", "b", "text", "t"⟩,
         ⟨"msg_0_3", "R", "u", "c", "text", "t"⟩])], [], [], [], 3⟩ :
        TextChat.ChatState).room_messages "R").getD [], m.id ≠ "") ∧
    TextChat.get_room_messages
        (⟨[("R",
          [⟨"msg_0_1", "R", "u", "a", "text", "t"⟩,
           ⟨"msg_0_2", "R", "u", "b", "text", "t"⟩,
           ⟨"msg_0_3", "R", "u", "c", "text", "t"⟩])], [], [], [], 3⟩ :
          TextChat.ChatState) "R" 2 (some "msg_0_3")
      = TextChat.spec_get_room_messages
        (⟨[("R",
          [⟨"msg_0_1", "R", "u", "a", "text", "t"⟩,
           ⟨"msg_0_2", "R", "u", "b", "text", "t"⟩,
           ⟨"msg_0_3", "R", "u", "c", "text", "t"⟩])], [], [], [], 3⟩ :
          TextChat.ChatState) "R" (Int.toNat 2) (some "msg_0_3") ∧
    TextChat.get_room_messages
        (⟨[("R",
          [⟨"msg_0_1", "R", "u", "a", "text", "t"⟩,
           ⟨"msg_0_2", "R", "u", "b", "text", "t"⟩,
           ⟨"msg_0_3", "R", "u", "c", "text", "t"⟩])], [], [], [], 3⟩ :
          TextChat.ChatState) "R" 2 (some "msg_0_3")
      = [⟨"msg_0_1", "R", "u", "a", "text", "t"⟩,
         ⟨"msg_0_2", "R", "u", "b", "text", "t"⟩] :=
  ⟨by decide, by decide,
    C4_pagination
      ⟨[("R",
        [⟨"msg_0_1", "R", "u", "a", "text", "t"⟩,
         ⟨"msg_0_2", "R", "u", "b", "text", "t"⟩,
         ⟨"msg_0_3", "R", "u", "c", "text", "t"⟩])], [], [], [], 3⟩
      "R" 2 (some "msg_0_3") (by decide) (by decide),
    by decide⟩

theorem counterChain_init : TextChat.CounterChain TextChat.chatInit := by
  intro room
  exact ⟨[], by simp [TextChat.chatInit, alookup], by simp, by simp⟩

theorem counterChain_send (st : TextChat.ChatState) (r u c t : String) (ts : Nat)
    (iso : String) (h : TextChat.CounterChain st) :
    TextChat.CounterChain (TextChat.send_message st r u c t ts iso).1 := by
  intro room
  obtain ⟨tcs, h1, h2, h3⟩ := h room
  by_cases hr : room = r
  · subst hr
    refine ⟨tcs ++ [(ts, st.message_counter + 1)], ?_, ?_, ?_⟩
    · simp [TextChat.send_message, alookup_aset_self, h1]
    · rw [List.map_append]
      refine List.pairwise_append.mpr ⟨h2, by simp, ?_⟩
      intro a ha b hb
      simp only [List.map_cons, List.map_nil, List.mem_singleton] at hb
      subst hb
      obtain ⟨p, hp, hpa⟩ := List.mem_map.mp ha
      subst hpa
      exact Nat.lt_succ_of_le (h3 p hp)
    · intro p hp
      rcases List.mem_append.mp hp with hp | hp
      · exact le_trans (h3 p hp) (by simp [TextChat.send_message])
      · simp only [List.mem_singleton] at hp
        subst hp
        simp [TextChat.send_message]
  · refine ⟨tcs, ?_, h2, ?_⟩
    · simpa [TextChat.send_message, alookup_aset_ne _ _ _ _ hr] using h1
    · intro p hp
      exact le_trans (h3 p hp) (by simp [TextChat.send_message])

theorem counterChain_caption_write (st : TextChat.ChatState) (r u : String)
    (cap : TextChat.Caption) (h : TextChat.CounterChain st) :
    TextChat.CounterChain (TextChat.caption_state_update st r u cap) := by
  intro room
  obtain ⟨tcs, h1, h2, h3⟩ := h room
  exact ⟨tcs, by simpa [TextChat.caption_state_update] using h1, h2,
    by simpa [TextChat.caption_state_update] using h3⟩

theorem counterChain_update_caption (st : TextChat.ChatState) (r u x : String)
    (f : Bool) (l : String) (ts : Nat) (iso : String)
    (h : TextChat.CounterChain st) :
    TextChat.CounterChain (TextChat.update_caption st r u x f l ts iso).1 := by
  unfold TextChat.update_caption
  by_cases hc : (f && !(pyStrip x == "")) = true
  · simp only [hc, if_true]
    exact counterChain_send _ r u x "caption" ts iso
      (counterChain_caption_write st r u _ h)
  · simp only [Bool.not_eq_true] at hc
    simp only [hc, Bool.false_eq_true, if_false]
    exact counterChain_caption_write st r u _ h

theorem counterChain_clear (st : TextChat.ChatState) (r : String)
    (h : TextChat.CounterChain st) :
    TextChat.CounterChain (TextChat.clear_room_messages st r) := by
  unfold TextChat.clear_room_messages
  by_cases hx : (alookup st.room_messages r).isSome
  · simp only [hx, if_true]
    intro room
    by_cases hr : room = r
    · subst hr
      exact ⟨[], by simp [alookup_aset_self], by simp, by simp⟩
    · obtain ⟨tcs, h1, h2, h3⟩ := h room
      exact ⟨tcs, by simpa [alookup_aset_ne _ _ _ _ hr] using h1, h2, h3⟩
  · simp only [hx, Bool.false_eq_true, if_false]
    exact h

theorem counterChain_runOps (ops : List TextChat.ChatOp) (st : TextChat.ChatState)
    (h : TextChat.CounterChain st) :
    TextChat.CounterChain (TextChat.runOps st ops) := by
  induction ops generalizing st with
  | nil => exact h
  | cons op rest ih =>
      cases op with
      | send r u c t ts iso =>
          exact ih _ (counterChain_send st r u c t ts iso h)
      | caption r u x f l ts iso =>
          exact ih _ (counterChain_update_caption st r u x f l ts iso h)
      | clear r =>
          exact ih _ (counterChain_clear st r h)

/-- C6: a concrete reachable room log on which insertion-order ids are not
strictly increasing as strings — ten sends within the same timestamp second
produce `msg_0_9` at position 8 and `msg_0_10` at position 9, and
`"msg_0_10"` sorts before `"msg_0_9"` lexicographically. -/
theorem C6_counterexample :
    ¬ ((alookup (TextChat.sendNTimes TextChat.chatInit 10).room_messages
        "R").getD []).Pairwise (fun a b => a.id < b.id) := by
  intro hp
  have hlog : ((alookup (TextChat.sendNTimes TextChat.chatInit 10).room_messages
      "R").getD [])
      = [⟨"msg_0_1", "R", "u", "hi", "text", "T"⟩,
         ⟨"msg_0_2", "R", "u", "hi", "text", "T"⟩,
         ⟨"msg_0_3", "R", "u", "hi", "text", "T"⟩,
         ⟨"msg_0_4", "R", "u", "hi", "text", "T"⟩,
         ⟨"msg_0_5", "R", "u", "hi", "text", "T"⟩,
         ⟨"msg_0_6", "R", "u", "hi", "text", "T"⟩,
         ⟨"msg_0_7", "R", "u", "hi", "text", "T"⟩,
         ⟨"msg_0_8", "R", "u", "hi", "text", "T"⟩,
         ⟨"msg_0_9", "R", "u", "hi", "text", "T"⟩,
         ⟨"msg_0_10", "R", "u", "hi", "text", "T"⟩] := by
    decide
  rw [hlog] at hp
  have h9 : ("msg_0_9" : String) < "msg_0_10" :=
    List.pairwise_iff_get.mp hp ⟨8, by decide⟩ ⟨9, by decide⟩ (by decide)
  rw [String.lt_iff_toList_lt] at h9
  exact absurd h9 (by decide)

/-- C6 (amended): within one room's in-memory log built by the local
operations (send_message, update_caption, clear_room_messages) from a fresh
manager, every id is of the form `msg_<timestamp>_<counter>` and the
numeric counter components are strictly increasing in insertion order —
the id strings themselves are not strictly increasing in string order. -/
theorem C6_room_log_counters_increasing (ops : List TextChat.ChatOp)
    (room : String) :
    ∃ tcs : List (Nat × Nat),
      ((alookup (TextChat.runOps TextChat.chatInit ops).room_messages
          room).getD []).map TextChat.Message.id
        = tcs.map (fun p => TextChat.mkMessageId p.1 p.2) ∧
      (tcs.map Prod.snd).Pairwise (fun a b => a < b) := by
  obtain ⟨tcs, h1, h2, h3⟩ := counterChain_runOps ops TextChat.chatInit
    counterChain_init room
  exact ⟨tcs, h1, h2⟩

end TranslateManual
